import Mathlib

/-!
Verification development for the self-hosted Sentry MCP server
(`src/index.ts`).  The definitions below are a shallow embedding of the
dispatch/validation/error-translation core: the issue-reference
normalizer `getIssueId`, the per-tool argument validators, the tool
registry's input schemas, the upstream query construction for
`list_sentry_issues`, the base-URL normalization, and the tool-call
dispatcher with its error classification.
-/

namespace SentryMcp

/-- ASCII digit test, the character class of the JS regex `\d`
(code points 48-57). -/
def isAsciiDigit (c : Char) : Bool := 48 ≤ c.toNat && c.toNat ≤ 57

/-- ASCII letter test (code points 65-90 and 97-122), used for the
first character of a URL scheme. -/
def isAsciiAlpha (c : Char) : Bool :=
  (65 ≤ c.toNat && c.toNat ≤ 90) || (97 ≤ c.toNat && c.toNat ≤ 122)

/-- Characters allowed in a URL scheme after the first one:
ALPHA / DIGIT / plus / minus / dot. -/
def isSchemeChar (c : Char) : Bool :=
  isAsciiAlpha c || isAsciiDigit c || c == '+' || c == '-' || c == '.'

/-- The JS test `/^\d+$/.test(s)` on the character list of `s`:
nonempty and all ASCII digits. -/
def regexDigits (cs : List Char) : Bool := !cs.isEmpty && cs.all isAsciiDigit

/-- `String.split` with a single separator character, as JS
`s.split('/')` behaves: `"/a/b"` gives `["", "a", "b"]`, `""` gives
`[""]`. -/
def splitOnChar (sep : Char) : List Char → List (List Char)
  | [] => [[]]
  | c :: cs =>
    if c == sep then [] :: splitOnChar sep cs
    else
      match splitOnChar sep cs with
      | [] => [[c]]
      | p :: ps => (c :: p) :: ps

/-- Scan the remainder of a scheme up to the first colon; fails when a
non-scheme character is met or the string ends without a colon.
Returns the characters after the colon. -/
def scanScheme : List Char → Option (List Char)
  | [] => none
  | c :: cs => if c == ':' then some cs else if isSchemeChar c then scanScheme cs else none

/-- Characters of a path up to the query or fragment delimiter. -/
def takeUntilQueryOrFrag (cs : List Char) : List Char :=
  cs.takeWhile (fun c => !(c == '?') && !(c == '#'))

/-- Pathname of the part of a URL after the `scheme:` prefix: with a
`//` authority, the path starts at the first slash after the authority
(defaulting to `/`); otherwise the rest up to `?` or `#` is an opaque
path. -/
def pathnameOfRest (rest : List Char) : List Char :=
  match rest with
  | '/' :: '/' :: tail =>
    let afterAuth := tail.dropWhile (fun c => !(c == '/') && !(c == '?') && !(c == '#'))
    match afterAuth with
    | '/' :: _ => takeUntilQueryOrFrag afterAuth
    | _ => ['/']
  | _ => takeUntilQueryOrFrag rest

/-- Modelled from the spec: `new URL(input)` is a platform builtin, not
repository code; the spec only relies on "attempt to parse it as an
absolute URL" and on the URL's path.  This model accepts exactly the
strings with a well-formed scheme prefix (one ASCII letter, then scheme
characters, then a colon) and returns the pathname; host validation,
percent-encoding, dot-segment normalization and whitespace stripping
are not modelled.  Parse failure is the `none` result (JS throws,
caught by the caller). -/
def parseURLPathname (input : List Char) : Option (List Char) :=
  match input with
  | c :: cs => if isAsciiAlpha c then (scanScheme cs).map pathnameOfRest else none
  | [] => none

/-- The URL branch of the normalizer (src/index.ts:65-70): find the
first segment equal to `issues` (JS `indexOf`) among the path
segments; when a next segment exists and is all digits, return it. -/
def extractIssueIdFromPath (pathParts : List (List Char)) : Option String :=
  match pathParts.findIdx? (fun p => p == "issues".data) with
  | some issuesIndex =>
    match pathParts[issuesIndex + 1]? with
    | some potentialId => if regexDigits potentialId then some (String.mk potentialId) else none
    | none => none
  | none => none

/-- The issue-reference normalizer (`getIssueId`, src/index.ts:62-75).
Try to parse the input as a URL; on success split the pathname on `/`
and extract the candidate segment.  On parse failure (the JS `catch`
branch) return the input itself when it is all digits.  All other
cases give `none` (JS `null`); the function is total, so no exception
escapes. -/
def getIssueId (input : String) : Option String :=
  match parseURLPathname input.data with
  | some pathname => extractIssueIdFromPath (splitOnChar '/' pathname)
  | none => if regexDigits input.data then some input else none

/-- The startup URL-validity check (src/index.ts:35-39): `new URL(SENTRY_URL)`
succeeds. -/
def isValidSentryUrl (s : String) : Bool := (parseURLPathname s.data).isSome

/-- JS `s.endsWith('/')`. -/
def endsWithSlash (s : String) : Bool :=
  match s.data.getLast? with
  | some c => c == '/'
  | none => false

/-- The base-URL normalization (src/index.ts:41):
`SENTRY_URL.endsWith('/') ? SENTRY_URL.slice(0, -1) : SENTRY_URL`. -/
def sentryBaseUrl (url : String) : String :=
  if endsWithSlash url then String.mk url.data.dropLast else url

/-- The string ends with two slashes (used to delimit the inputs on
which one `slice(0, -1)` removes every trailing slash). -/
def endsWithTwoSlashes (s : String) : Bool :=
  match s.data.reverse with
  | '/' :: '/' :: _ => true
  | _ => false

mutual
/-- Untyped JS values, as far as the validators and the JSON payloads
need them: `jundefined` is the JS `undefined` (also the result of reading an
absent field), the rest are the JSON value forms. -/
inductive JValue where
  | jundefined : JValue
  | jnull : JValue
  | jbool : Bool → JValue
  | jnum : Int → JValue
  | jstr : String → JValue
  | jobj : JFields → JValue
  | jarr : JArr → JValue

/-- Ordered fields of a JS object. -/
inductive JFields where
  | nil : JFields
  | cons : String → JValue → JFields → JFields

/-- Elements of a JS array. -/
inductive JArr where
  | nil : JArr
  | cons : JValue → JArr → JArr
end

/-- First field with the given key, JS property lookup on an object
literal. -/
def JFields.find : JFields → String → JValue
  | .nil, _ => .jundefined
  | .cons k v rest, key => if k = key then v else JFields.find rest key

/-- JS property read `v.key`: `undefined` on anything that is not an
object with that field (arrays carry no named fields we model). -/
def getField (v : JValue) (key : String) : JValue :=
  match v with
  | .jobj fs => JFields.find fs key
  | _ => .jundefined

/-- JS `typeof v === 'object' && v !== null` (arrays and objects pass,
`null` is excluded by the second conjunct). -/
def isJSObject (v : JValue) : Bool :=
  match v with
  | .jobj _ => true
  | .jarr _ => true
  | _ => false

/-- JS `typeof v === 'string'`. -/
def isJSString (v : JValue) : Bool :=
  match v with
  | .jstr _ => true
  | _ => false

/-- JS `v === undefined`. -/
def isJSUndefined (v : JValue) : Bool :=
  match v with
  | .jundefined => true
  | _ => false

/-- Validator for `get_sentry_issue` (src/index.ts:44-45). -/
def isValidGetIssueArgs (args : JValue) : Bool :=
  isJSObject args && isJSString (getField args "issue_id_or_url")

/-- Validator for `list_sentry_issues` (src/index.ts:47-50): the
optional `query` and `status` fields only need to be strings when
present. -/
def isValidListIssuesArgs (args : JValue) : Bool :=
  isJSObject args && isJSString (getField args "project_slug") &&
  (isJSUndefined (getField args "query") || isJSString (getField args "query")) &&
  (isJSUndefined (getField args "status") || isJSString (getField args "status"))

/-- Validator for `get_sentry_event_details` (src/index.ts:52-53). -/
def isValidGetEventArgs (args : JValue) : Bool :=
  isJSObject args && isJSString (getField args "project_slug") &&
  isJSString (getField args "event_id")

/-- Validator for `update_sentry_issue_status` (src/index.ts:55-57):
`status` must be a string and a member of the enumeration. -/
def isValidUpdateIssueArgs (args : JValue) : Bool :=
  isJSObject args && isJSString (getField args "issue_id") &&
  (match getField args "status" with
   | .jstr s => (["resolved", "ignored", "unresolved"] : List String).contains s
   | _ => false)

/-- Validator for `create_sentry_issue_comment` (src/index.ts:59-60). -/
def isValidCreateCommentArgs (args : JValue) : Bool :=
  isJSObject args && isJSString (getField args "issue_id") &&
  isJSString (getField args "comment_text")

/-- Escape of one character inside a JSON string literal, the cases
`JSON.stringify` produces for the values in play (backslash, quote and
the common control characters; other control characters are not
modelled). -/
def escapeJsonChar (c : Char) : List Char :=
  if c = '\\' then ['\\', '\\']
  else if c = '"' then ['\\', '"']
  else if c = '\n' then ['\\', 'n']
  else if c = '\r' then ['\\', 'r']
  else if c = '\t' then ['\\', 't']
  else [c]

/-- JSON string literal for `s`. -/
def quoteJson (s : String) : String :=
  String.mk ('"' :: (s.data.flatMap escapeJsonChar ++ ['"']))

mutual
/-- Compact `JSON.stringify(v)`, the form used for the raw response
body inside error messages (src/index.ts:215).  Response bodies are
parsed JSON, so `jundefined` never occurs in them; it is rendered as null. -/
def jsonStringify : JValue → String
  | .jundefined => "null"
  | .jnull => "null"
  | .jbool true => "true"
  | .jbool false => "false"
  | .jnum n => toString n
  | .jstr s => quoteJson s
  | .jobj fs => "\x7b" ++ jsonStringifyFields fs ++ "\x7d"
  | .jarr xs => "[" ++ jsonStringifyElems xs ++ "]"

/-- Comma-joined `key:value` items of a compact object. -/
def jsonStringifyFields : JFields → String
  | .nil => ""
  | .cons k v .nil => quoteJson k ++ ":" ++ jsonStringify v
  | .cons k v (.cons k2 v2 rest) =>
    quoteJson k ++ ":" ++ jsonStringify v ++ "," ++ jsonStringifyFields (.cons k2 v2 rest)

/-- Comma-joined items of a compact array. -/
def jsonStringifyElems : JArr → String
  | .nil => ""
  | .cons v .nil => jsonStringify v
  | .cons v (.cons v2 rest) => jsonStringify v ++ "," ++ jsonStringifyElems (.cons v2 rest)
end

/-- Two spaces of indentation per level, the `JSON.stringify(v, null, 2)`
indent. -/
def indentStr (level : Nat) : String := String.mk (List.replicate (2 * level) ' ')

mutual
/-- Pretty rendering of a value at a nesting depth, the layout of
`JSON.stringify(v, null, 2)` (src/index.ts:177 and the other success
branches). -/
def renderPretty : JValue → Nat → String
  | .jobj .nil, _ => "\x7b\x7d"
  | .jobj (.cons k v rest), depth =>
    "\x7b\n" ++ renderPrettyFields (.cons k v rest) (depth + 1) ++ "\n" ++
      indentStr depth ++ "\x7d"
  | .jarr .nil, _ => "[]"
  | .jarr (.cons v rest), depth =>
    "[\n" ++ renderPrettyElems (.cons v rest) (depth + 1) ++ "\n" ++ indentStr depth ++ "]"
  | v, _ => jsonStringify v

/-- Lines of the fields of a pretty object, joined with a comma and a
newline. -/
def renderPrettyFields : JFields → Nat → String
  | .nil, _ => ""
  | .cons k v .nil, depth => indentStr depth ++ quoteJson k ++ ": " ++ renderPretty v depth
  | .cons k v (.cons k2 v2 rest), depth =>
    indentStr depth ++ quoteJson k ++ ": " ++ renderPretty v depth ++ ",\n" ++
      renderPrettyFields (.cons k2 v2 rest) depth

/-- Lines of the elements of a pretty array. -/
def renderPrettyElems : JArr → Nat → String
  | .nil, _ => ""
  | .cons v .nil, depth => indentStr depth ++ renderPretty v depth
  | .cons v (.cons v2 rest), depth =>
    indentStr depth ++ renderPretty v depth ++ ",\n" ++ renderPrettyElems (.cons v2 rest) depth
end

/-- `JSON.stringify(v, null, 2)`. -/
def jsonStringifyPretty (v : JValue) : String := renderPretty v 0

deriving instance DecidableEq for JValue

/-- One property of a tool's declared input schema: its name, its
`type` string, and its `enum` list when one is declared. -/
structure PropSchema where
  propName : String
  propType : String
  enumVals : Option (List String)
deriving DecidableEq

/-- A tool's declared input schema: properties and required names
(src/index.ts:103-165; the human-readable descriptions are omitted). -/
structure InputSchema where
  properties : List PropSchema
  required : List String
deriving DecidableEq

/-- A registry entry: tool name and input schema. -/
structure ToolDef where
  toolName : String
  inputSchema : InputSchema
deriving DecidableEq

/-- The static tool registry, in source order (src/index.ts:103-165),
with the enum lists exactly as declared there. -/
def toolRegistry : List ToolDef :=
  [⟨"get_sentry_issue", ⟨[⟨"issue_id_or_url", "string", none⟩], ["issue_id_or_url"]⟩⟩,
   ⟨"list_sentry_projects", ⟨[], []⟩⟩,
   ⟨"list_sentry_issues",
     ⟨[⟨"project_slug", "string", none⟩, ⟨"query", "string", none⟩,
       ⟨"status", "string", some ["resolved", "unresolved", "ignored"]⟩],
      ["project_slug"]⟩⟩,
   ⟨"get_sentry_event_details",
     ⟨[⟨"project_slug", "string", none⟩, ⟨"event_id", "string", none⟩],
      ["project_slug", "event_id"]⟩⟩,
   ⟨"update_sentry_issue_status",
     ⟨[⟨"issue_id", "string", none⟩,
       ⟨"status", "string", some ["resolved", "ignored", "unresolved"]⟩],
      ["issue_id", "status"]⟩⟩,
   ⟨"create_sentry_issue_comment",
     ⟨[⟨"issue_id", "string", none⟩, ⟨"comment_text", "string", none⟩],
      ["issue_id", "comment_text"]⟩⟩]

/-- Names of the registered tools, in source order. -/
def registryToolNames : List String := toolRegistry.map ToolDef.toolName

/-- The `enum` list the registry declares for the `status` property of
the named tool, when there is one. -/
def statusEnum (tool : String) : Option (List String) :=
  match toolRegistry.find? (fun t => t.toolName = tool) with
  | some t =>
    match t.inputSchema.properties.find? (fun p => p.propName = "status") with
    | some p => p.enumVals
    | none => none
  | none => none

/-- The protocol error codes the dispatcher uses (`ErrorCode` of the
MCP SDK). -/
inductive ErrorCode where
  | methodNotFound : ErrorCode
  | invalidParams : ErrorCode
deriving DecidableEq

/-- A protocol-level fault (`McpError`): thrown by the dispatcher and
rethrown past the envelope-producing catch block, so it reaches the
transport as a distinguishable error type. -/
structure McpError where
  code : ErrorCode
  message : String
deriving DecidableEq

/-- HTTP methods the dispatcher issues. -/
inductive HttpMethod where
  | get : HttpMethod
  | put : HttpMethod
  | post : HttpMethod
deriving DecidableEq

/-- One upstream HTTP request: method, path relative to the client's
base `{baseUrl}/api/0/`, query parameters, and JSON body. -/
structure HttpRequest where
  method : HttpMethod
  path : String
  queryParams : List (String × String)
  body : Option JValue
deriving DecidableEq

/-- Outcome of an upstream HTTP request, as axios surfaces it: a 2xx
response with parsed JSON data; a non-2xx response (an axios error
carrying `response.status`, `response.data` and a `message`); or a
transport error with no response. -/
inductive HttpOutcome where
  | success : JValue → HttpOutcome
  | httpError : Nat → JValue → String → HttpOutcome
  | networkError : String → HttpOutcome

/-- One item of a response envelope's `content` (always
`type: 'text'`). -/
inductive ToolContent where
  | text : String → ToolContent
deriving DecidableEq

/-- The response envelope `{content, isError}`.  The success branches
of the source omit `isError`; an absent `isError` is read as `false`
by the protocol, so it is `false` here. -/
structure ToolResponse where
  content : List ToolContent
  isError : Bool
deriving DecidableEq

/-- The upstream query parameter of `list_sentry_issues`
(src/index.ts:185-187): `params.query = args.query` when `args.query`
is truthy (a non-empty string), then, when `args.status` is truthy,
`params.query = (params.query ? params.query + ' ' : '') + 'is:' +
args.status`.  `none` models an absent field (no `params.query` key). -/
def buildListIssuesQuery (query status : Option String) : Option String :=
  let withQuery : Option String :=
    match query with
    | some q => if q = "" then none else some q
    | none => none
  match status with
  | some s =>
    if s = "" then withQuery
    else
      some ((match withQuery with
             | some q => if q = "" then "" else q ++ " "
             | none => "") ++ "is:" ++ s)
  | none => withQuery

/-- The string field of a validated optional argument: validators
guarantee string-or-undefined for `query` and `status`. -/
def jsOptStr (v : JValue) : Option String :=
  match v with
  | .jstr s => some s
  | _ => none

/-- The error message built by the catch block for an axios error that
carries a response (src/index.ts:210-223): the generic message with
status and raw body is replaced by a specialized one for 401/403 and
for 404. -/
def classifyAxiosError (tool : String) (status : Nat) (data : JValue)
    (message : String) : String :=
  let base := "Sentry API error for " ++ tool ++ ": " ++ message
  let withResp := base ++ " Status: " ++ toString status ++ ". Response: " ++
    jsonStringify data
  if 400 ≤ status ∧ status < 500 then
    if status = 401 ∨ status = 403 then
      "Sentry API permission denied for " ++ tool ++ ". Check auth token validity and permissions."
    else if status = 404 then
      "Sentry resource not found for " ++ tool ++ ". Check IDs/slugs."
    else withResp
  else withResp

/-- The per-branch routing of a tool call (src/index.ts:172-208): the
`if toolName === ...` chain, each branch running its validator (and,
for `get_sentry_issue`, the issue-reference normalizer) and then
building the single upstream request of the table; the final `else`
is the unknown-tool fault.  A thrown `McpError` is the `Except.error`
case. -/
def routeTool (orgSlug tool : String) (args : JValue) : Except McpError HttpRequest :=
  if tool = "get_sentry_issue" then
    if !isValidGetIssueArgs args then
      .error ⟨.invalidParams, "Invalid args for get_sentry_issue."⟩
    else
      match getField args "issue_id_or_url" with
      | .jstr input =>
        match getIssueId input with
        | some issueId => .ok ⟨.get, "issues/" ++ issueId ++ "/", [], none⟩
        | none => .error ⟨.invalidParams, "Could not extract issue ID from: " ++ input⟩
      | _ => .error ⟨.invalidParams, "Invalid args for get_sentry_issue."⟩
  else if tool = "list_sentry_projects" then
    .ok ⟨.get, "organizations/" ++ orgSlug ++ "/projects/", [], none⟩
  else if tool = "list_sentry_issues" then
    if !isValidListIssuesArgs args then
      .error ⟨.invalidParams, "Invalid args for list_sentry_issues."⟩
    else
      match getField args "project_slug" with
      | .jstr projectSlug =>
        let params : List (String × String) :=
          match buildListIssuesQuery (jsOptStr (getField args "query"))
                  (jsOptStr (getField args "status")) with
          | some q => [("query", q)]
          | none => []
        .ok ⟨.get, "projects/" ++ orgSlug ++ "/" ++ projectSlug ++ "/issues/", params, none⟩
      | _ => .error ⟨.invalidParams, "Invalid args for list_sentry_issues."⟩
  else if tool = "get_sentry_event_details" then
    if !isValidGetEventArgs args then
      .error ⟨.invalidParams, "Invalid args for get_sentry_event_details."⟩
    else
      match getField args "project_slug", getField args "event_id" with
      | .jstr projectSlug, .jstr eventId =>
        .ok ⟨.get, "projects/" ++ orgSlug ++ "/" ++ projectSlug ++ "/events/" ++
          eventId ++ "/", [], none⟩
      | _, _ => .error ⟨.invalidParams, "Invalid args for get_sentry_event_details."⟩
  else if tool = "update_sentry_issue_status" then
    if !isValidUpdateIssueArgs args then
      .error ⟨.invalidParams, "Invalid args for update_sentry_issue_status."⟩
    else
      match getField args "issue_id", getField args "status" with
      | .jstr issueId, .jstr status =>
        .ok ⟨.put, "issues/" ++ issueId ++ "/", [],
          some (.jobj (.cons "status" (.jstr status) .nil))⟩
      | _, _ => .error ⟨.invalidParams, "Invalid args for update_sentry_issue_status."⟩
  else if tool = "create_sentry_issue_comment" then
    if !isValidCreateCommentArgs args then
      .error ⟨.invalidParams, "Invalid args for create_sentry_issue_comment."⟩
    else
      match getField args "issue_id", getField args "comment_text" with
      | .jstr issueId, .jstr commentText =>
        .ok ⟨.post, "issues/" ++ issueId ++ "/comments/", [],
          some (.jobj (.cons "text" (.jstr commentText) .nil))⟩
      | _, _ => .error ⟨.invalidParams, "Invalid args for create_sentry_issue_comment."⟩
  else
    .error ⟨.methodNotFound, "Unknown tool: " ++ tool⟩

/-- The shared success wrap and catch block applied to the one issued
request (src/index.ts:177 success shape, 209-233 error translation):
a 2xx outcome gives the pretty-printed body with `isError` absent
(false); any axios error gives the classified message with
`isError: true`. -/
def performRequest (tool : String) (req : HttpRequest)
    (http : HttpRequest → HttpOutcome) : ToolResponse :=
  match http req with
  | .success data => ⟨[.text (jsonStringifyPretty data)], false⟩
  | .httpError status data message =>
    ⟨[.text (classifyAxiosError tool status data message)], true⟩
  | .networkError message =>
    ⟨[.text ("Sentry API error for " ++ tool ++ ": " ++ message)], true⟩

/-- Result of dispatching one call: the protocol-level result (a fault
or an envelope) together with the list of upstream requests that were
issued (empty on the fault paths, a single request otherwise). -/
structure DispatchResult where
  result : Except McpError ToolResponse
  requests : List HttpRequest

/-- The tool-call request handler (src/index.ts:167-235): route the
call, and either propagate the protocol fault (issuing no request) or
issue the one upstream request and translate its outcome. -/
def handleCallTool (orgSlug tool : String) (args : JValue)
    (http : HttpRequest → HttpOutcome) : DispatchResult :=
  match routeTool orgSlug tool args with
  | .error e => ⟨.error e, []⟩
  | .ok req => ⟨.ok (performRequest tool req http), [req]⟩

/-- An optional string field of an argument bag: present when the
option is. -/
def optStrField (key : String) (v : Option String) (rest : JFields) : JFields :=
  match v with
  | some s => .cons key (.jstr s) rest
  | none => rest

/-- Argument bag for `list_sentry_issues` with optional `query` and
`status`. -/
def mkListIssuesArgs (projectSlug : String) (query status : Option String) : JValue :=
  .jobj (.cons "project_slug" (.jstr projectSlug)
    (optStrField "query" query (optStrField "status" status .nil)))

/-- An ASCII digit is not an ASCII letter, so a string of digits has no
valid scheme start. -/
theorem isAsciiDigit_not_alpha {c : Char} (h : isAsciiDigit c = true) :
    isAsciiAlpha c = false := by
  cases halpha : isAsciiAlpha c with
  | false => rfl
  | true =>
    exfalso
    simp only [isAsciiDigit, Bool.and_eq_true, decide_eq_true_eq] at h
    simp only [isAsciiAlpha, Bool.or_eq_true, Bool.and_eq_true, decide_eq_true_eq] at halpha
    omega

/-- An all-digit string never parses as a URL: its first character is
a digit, not a letter, so there is no scheme. -/
theorem parseURLPathname_of_digits {cs : List Char} (h : regexDigits cs = true) :
    parseURLPathname cs = none := by
  cases cs with
  | nil => rfl
  | cons c rest =>
    have hc : isAsciiDigit c = true := by
      simp only [regexDigits, Bool.and_eq_true, List.all_cons] at h
      exact h.2.1
    simp [parseURLPathname, isAsciiDigit_not_alpha hc]

/-- C7: for every input string matching the regex of one or more ASCII
digits, the issue-reference normalizer returns that string unchanged
(the URL parse fails and the fallback digit test accepts the input). -/
theorem claim_C7_numeric_identity (s : String) (h : regexDigits s.data = true) :
    getIssueId s = some s := by
  unfold getIssueId
  rw [parseURLPathname_of_digits h]
  simp [h]

/-- C7 witness: the concrete numeric string is returned unchanged. -/
theorem claim_C7_witness : regexDigits "12345".data = true ∧ getIssueId "12345" = some "12345" :=
  ⟨by decide, claim_C7_numeric_identity "12345" (by decide)⟩

/-- Evaluation of the normalizer on the URL branch. -/
theorem getIssueId_of_parse {input : String} {pathname : List Char}
    (hp : parseURLPathname input.data = some pathname) :
    getIssueId input = extractIssueIdFromPath (splitOnChar '/' pathname) := by
  unfold getIssueId
  rw [hp]

/-- Evaluation of the normalizer on the parse-failure branch. -/
theorem getIssueId_of_noparse {input : String}
    (hp : parseURLPathname input.data = none) :
    getIssueId input = if regexDigits input.data then some input else none := by
  unfold getIssueId
  rw [hp]

/-- C10: output invariant of the normalizer: every returned string is
one or more ASCII digits (both return paths are guarded by the digit
test). -/
theorem claim_C10_output_invariant (input r : String) (h : getIssueId input = some r) :
    regexDigits r.data = true := by
  cases hp : parseURLPathname input.data with
  | none =>
    rw [getIssueId_of_noparse hp] at h
    by_cases hd : regexDigits input.data = true
    · rw [if_pos hd] at h
      cases h
      exact hd
    · rw [if_neg hd] at h
      cases h
  | some pathname =>
    rw [getIssueId_of_parse hp] at h
    unfold extractIssueIdFromPath at h
    split at h
    · split at h
      · split at h
        · cases h
          assumption
        · cases h
      · cases h
    · cases h

/-- C10 witness: a concrete URL input yields an all-digit result. -/
theorem claim_C10_witness :
    getIssueId "https://x.com/issues/42/" = some "42" ∧ regexDigits "42".data = true :=
  ⟨by decide, claim_C10_output_invariant "https://x.com/issues/42/" "42" (by decide)⟩

/-- C2 (amended): for a URL input, the normalizer returns the digit
segment that follows the FIRST `issues` segment of the path; the
claim's further clause about an earlier `issues` segment followed by a
non-digit segment fails on the code (see the counterexample), because
`indexOf` only ever inspects the first occurrence. -/
theorem claim_C2_url_issue_id_amended (input : String) (pathname seg : List Char) (i : Nat)
    (hp : parseURLPathname input.data = some pathname)
    (hf : (splitOnChar '/' pathname).findIdx? (fun p => p == "issues".data) = some i)
    (hg : (splitOnChar '/' pathname)[i + 1]? = some seg)
    (hd : regexDigits seg = true) :
    getIssueId input = some (String.mk seg) := by
  rw [getIssueId_of_parse hp]
  unfold extractIssueIdFromPath
  simp only [hf, hg, hd, if_true]

/-- C2 counterexample: the path of this well-formed URL contains an
`issues` segment (at index 3) followed by the all-digit segment `123`
(at index 4), yet the normalizer returns `none`, because the first
`issues` segment (index 1) is followed by `abc`.  The claim as stated
requires `some "123"` here. -/
theorem claim_C2_counterexample :
    getIssueId "https://example.com/issues/abc/issues/123" = none
    ∧ parseURLPathname "https://example.com/issues/abc/issues/123".data =
        some "/issues/abc/issues/123".data
    ∧ (splitOnChar '/' "/issues/abc/issues/123".data)[3]? = some "issues".data
    ∧ (splitOnChar '/' "/issues/abc/issues/123".data)[4]? = some "123".data
    ∧ regexDigits "123".data = true :=
  ⟨by decide, by decide, by decide, by decide, by decide⟩

/-- C2 witness: on a URL whose first `issues` segment is followed by
digits, the amended statement yields that segment. -/
theorem claim_C2_witness :
    getIssueId "https://sentry.example.com/organizations/my-org/issues/123/" = some "123" :=
  claim_C2_url_issue_id_amended "https://sentry.example.com/organizations/my-org/issues/123/"
    "/organizations/my-org/issues/123/".data "123".data 3
    (by decide) (by decide) (by decide) (by decide)

/-- C8: the normalizer returns the `none` sentinel (and, being a total
function, cannot throw) when: no `issues` segment of a parsed URL path
is followed by an all-digit segment; or the path has no `issues`
segment at all; or the input neither parses as a URL nor is all
digits. -/
theorem claim_C8_no_match :
    (∀ (input : String) (pathname : List Char),
      parseURLPathname input.data = some pathname →
      (∀ (i : Nat) (seg : List Char),
        (splitOnChar '/' pathname)[i]? = some "issues".data →
        (splitOnChar '/' pathname)[i + 1]? = some seg → regexDigits seg = false) →
      getIssueId input = none)
    ∧ (∀ (input : String) (pathname : List Char),
      parseURLPathname input.data = some pathname →
      "issues".data ∉ splitOnChar '/' pathname →
      getIssueId input = none)
    ∧ (∀ input : String,
      parseURLPathname input.data = none → regexDigits input.data = false →
      getIssueId input = none) := by
  refine ⟨?_, ?_, ?_⟩
  · intro input pathname hp hno
    rw [getIssueId_of_parse hp]
    unfold extractIssueIdFromPath
    cases hf : (splitOnChar '/' pathname).findIdx? (fun p => p == "issues".data) with
    | none => simp only [hf]
    | some i =>
      simp only [hf]
      cases hg : (splitOnChar '/' pathname)[i + 1]? with
      | none => simp only [hg]
      | some seg =>
        simp only [hg]
        have hsat := hf
        rw [List.findIdx?_eq_some_iff_getElem] at hsat
        obtain ⟨hlt, hbeq, -⟩ := hsat
        have hiss : (splitOnChar '/' pathname)[i]? = some "issues".data := by
          rw [List.getElem?_eq_getElem hlt]
          exact congrArg some (eq_of_beq hbeq)
        rw [hno i seg hiss hg]
        simp
  · intro input pathname hp hnot
    rw [getIssueId_of_parse hp]
    unfold extractIssueIdFromPath
    have hf : (splitOnChar '/' pathname).findIdx? (fun p => p == "issues".data) = none := by
      rw [List.findIdx?_eq_none_iff]
      intro x hx
      by_cases hxeq : x = "issues".data
      · exact absurd (hxeq ▸ hx) hnot
      · simp only [beq_eq_false_iff_ne, ne_eq]
        exact hxeq
    simp only [hf]
  · intro input hp hd
    rw [getIssueId_of_noparse hp, hd]
    simp

/-- C8 witness: a non-URL, non-numeric input gives the sentinel. -/
theorem claim_C8_witness : getIssueId "abc" = none :=
  claim_C8_no_match.2.2 "abc" (by decide) (by decide)

/-- C1 counterexample: the registry declares an enumerated domain for
the `status` property of `list_sentry_issues`, yet that tool's
validator accepts a bag whose `status` is the string `bogus`, which is
not a member of the enumeration.  The claim as stated requires the
validator to reject it. -/
theorem claim_C1_counterexample :
    statusEnum "list_sentry_issues" = some ["resolved", "unresolved", "ignored"]
    ∧ isValidListIssuesArgs
        (.jobj (.cons "project_slug" (.jstr "p") (.cons "status" (.jstr "bogus") .nil))) = true
    ∧ (["resolved", "unresolved", "ignored"] : List String).contains "bogus" = false :=
  ⟨by decide, by decide, by decide⟩

/-- C1 (amended): of the two tools whose schema declares a status
enumeration, only `update_sentry_issue_status` enforces it in its
validator: whenever that validator accepts a bag, the `status` field is
a string belonging to the enumeration.  The `list_sentry_issues`
validator only checks that `status`, when present, is a string (see
the counterexample). -/
theorem claim_C1_status_enum_amended (args : JValue)
    (h : isValidUpdateIssueArgs args = true) :
    statusEnum "update_sentry_issue_status" = some ["resolved", "ignored", "unresolved"]
    ∧ ∃ s : String, getField args "status" = .jstr s ∧
        (s = "resolved" ∨ s = "ignored" ∨ s = "unresolved") := by
  refine ⟨by decide, ?_⟩
  unfold isValidUpdateIssueArgs at h
  simp only [Bool.and_eq_true] at h
  obtain ⟨-, h3⟩ := h
  cases hs : getField args "status" with
  | jstr s =>
    rw [hs] at h3
    refine ⟨s, rfl, ?_⟩
    simpa using h3
  | jundefined => rw [hs] at h3; cases h3
  | jnull => rw [hs] at h3; cases h3
  | jbool b => rw [hs] at h3; cases h3
  | jnum n => rw [hs] at h3; cases h3
  | jobj fs => rw [hs] at h3; cases h3
  | jarr xs => rw [hs] at h3; cases h3

/-- C1 witness: a concrete accepted bag for `update_sentry_issue_status`
has its status in the enumeration. -/
theorem claim_C1_witness :
    statusEnum "update_sentry_issue_status" = some ["resolved", "ignored", "unresolved"]
    ∧ ∃ s : String,
        getField (.jobj (.cons "issue_id" (.jstr "1") (.cons "status" (.jstr "resolved") .nil)))
          "status" = .jstr s
        ∧ (s = "resolved" ∨ s = "ignored" ∨ s = "unresolved") :=
  claim_C1_status_enum_amended
    (.jobj (.cons "issue_id" (.jstr "1") (.cons "status" (.jstr "resolved") .nil))) (by decide)

/-- C9 counterexample: this configured URL passes the startup validity
check and ends with two slashes; stripping one trailing slash leaves a
base URL that still ends with a slash, contradicting the claim that
the effective base URL never has a trailing slash. -/
theorem claim_C9_counterexample :
    isValidSentryUrl "https://sentry.example.com//" = true
    ∧ sentryBaseUrl "https://sentry.example.com//" = "https://sentry.example.com/"
    ∧ endsWithSlash (sentryBaseUrl "https://sentry.example.com//") = true :=
  ⟨by decide, by decide, by decide⟩

/-- C9 (amended): for every configured URL that passes the startup
validity check and does not end with two slashes, the effective base
URL has no trailing slash (the normalization strips exactly one
trailing slash). -/
theorem claim_C9_base_url_amended (s : String) (_h1 : isValidSentryUrl s = true)
    (h2 : endsWithTwoSlashes s = false) :
    endsWithSlash (sentryBaseUrl s) = false := by
  unfold sentryBaseUrl
  by_cases hsl : endsWithSlash s = true
  · rw [if_pos hsl]
    rcases List.eq_nil_or_concat s.data with hnil | ⟨ys, y, hconcat⟩
    · unfold endsWithSlash at hsl
      rw [hnil] at hsl
      cases hsl
    · rw [List.concat_eq_append] at hconcat
      have hy : y = '/' := by
        unfold endsWithSlash at hsl
        rw [hconcat, List.getLast?_concat] at hsl
        exact eq_of_beq hsl
      unfold endsWithSlash
      show (match (String.mk s.data.dropLast).data.getLast? with
            | some c => c == '/'
            | none => false) = false
      rw [show (String.mk s.data.dropLast).data = s.data.dropLast from rfl]
      rw [hconcat, List.dropLast_concat]
      rcases List.eq_nil_or_concat ys with hnil2 | ⟨zs, z, hconcat2⟩
      · rw [hnil2]
        rfl
      · rw [List.concat_eq_append] at hconcat2
        rw [hconcat2, List.getLast?_concat]
        have hz : z ≠ '/' := by
          intro hzeq
          unfold endsWithTwoSlashes at h2
          rw [hconcat, hconcat2, hzeq, hy] at h2
          simp [List.reverse_append] at h2
        simp only [beq_eq_false_iff_ne, ne_eq]
        exact hz
  · rw [if_neg hsl]
    exact Bool.not_eq_true _ ▸ hsl

/-- C9 witness: a well-formed URL with no trailing slash keeps a base
URL with no trailing slash. -/
theorem claim_C9_witness : endsWithSlash (sentryBaseUrl "https://sentry.example.com") = false :=
  claim_C9_base_url_amended "https://sentry.example.com" (by decide) (by decide)

/-- C3: whenever a dispatched call issues its upstream request and the
request succeeds, the returned envelope is a normal result whose
single text item is the pretty-printed JSON of the response body, with
`isError` false (absent in the source, read as false). -/
theorem claim_C3_success_envelope (org tool : String) (args data : JValue)
    (h : (handleCallTool org tool args (fun _ => .success data)).requests ≠ []) :
    (handleCallTool org tool args (fun _ => .success data)).result =
      .ok ⟨[.text (jsonStringifyPretty data)], false⟩ := by
  unfold handleCallTool at h ⊢
  cases hr : routeTool org tool args with
  | error e =>
    rw [hr] at h
    exact absurd rfl h
  | ok req =>
    rfl

/-- C3 witness: a simulated 200 response with body `id: "1"` for
`get_sentry_issue` yields the pretty-printed body and no error flag. -/
theorem claim_C3_witness :
    (handleCallTool "my-org" "get_sentry_issue"
      (.jobj (.cons "issue_id_or_url" (.jstr "123") .nil))
      (fun _ => .success (.jobj (.cons "id" (.jstr "1") .nil)))).requests ≠ []
    ∧ (handleCallTool "my-org" "get_sentry_issue"
      (.jobj (.cons "issue_id_or_url" (.jstr "123") .nil))
      (fun _ => .success (.jobj (.cons "id" (.jstr "1") .nil)))).result =
        .ok ⟨[.text "\x7b\n  \"id\": \"1\"\n\x7d"], false⟩ := by
  have h : (handleCallTool "my-org" "get_sentry_issue"
      (.jobj (.cons "issue_id_or_url" (.jstr "123") .nil))
      (fun _ => .success (.jobj (.cons "id" (.jstr "1") .nil)))).requests ≠ [] := by decide
  exact ⟨h, claim_C3_success_envelope "my-org" "get_sentry_issue"
    (.jobj (.cons "issue_id_or_url" (.jstr "123") .nil))
    (.jobj (.cons "id" (.jstr "1") .nil)) h⟩

/-- C4: whenever a dispatched call issues its upstream request and the
request fails with an HTTP status, the dispatcher returns a normal
envelope (never a protocol fault) with `isError` true, and the message
is classified: 401/403 give the permission-denied text naming the tool
with no raw body; 404 gives the resource-not-found text naming the
tool with no raw body; any other 4xx/5xx gives the generic text with
the status code and the raw serialized body. -/
theorem claim_C4_upstream_failure_classification (org tool : String) (args data : JValue)
    (status : Nat) (msg : String)
    (h : (handleCallTool org tool args (fun _ => .httpError status data msg)).requests ≠ []) :
    (handleCallTool org tool args (fun _ => .httpError status data msg)).result =
      .ok ⟨[.text (classifyAxiosError tool status data msg)], true⟩
    ∧ ((status = 401 ∨ status = 403) →
        classifyAxiosError tool status data msg =
          "Sentry API permission denied for " ++ tool ++
            ". Check auth token validity and permissions.")
    ∧ (status = 404 →
        classifyAxiosError tool status data msg =
          "Sentry resource not found for " ++ tool ++ ". Check IDs/slugs.")
    ∧ (400 ≤ status → status < 600 → status ≠ 401 → status ≠ 403 → status ≠ 404 →
        classifyAxiosError tool status data msg =
          "Sentry API error for " ++ tool ++ ": " ++ msg ++ " Status: " ++ toString status ++
            ". Response: " ++ jsonStringify data) := by
  refine ⟨?_, ?_, ?_, ?_⟩
  · unfold handleCallTool at h ⊢
    cases hr : routeTool org tool args with
    | error e =>
      rw [hr] at h
      exact absurd rfl h
    | ok req =>
      rfl
  · rintro (rfl | rfl) <;> simp [classifyAxiosError]
  · rintro rfl
    simp [classifyAxiosError]
  · intro h1 h2 h3 h4 h5
    have hnc2 : ¬(status = 401 ∨ status = 403) := by
      rintro (rfl | rfl)
      · exact h3 rfl
      · exact h4 rfl
    simp only [classifyAxiosError]
    by_cases hc1 : 400 ≤ status ∧ status < 500
    · rw [if_pos hc1, if_neg hnc2, if_neg h5]
    · rw [if_neg hc1]

/-- C4 witness: a simulated 404 for `get_sentry_issue` yields the
not-found envelope with no raw body. -/
theorem claim_C4_witness :
    (handleCallTool "my-org" "get_sentry_issue"
      (.jobj (.cons "issue_id_or_url" (.jstr "123") .nil))
      (fun _ => .httpError 404 (.jobj (.cons "detail" (.jstr "nope") .nil))
        "Request failed with status code 404")).requests ≠ []
    ∧ (handleCallTool "my-org" "get_sentry_issue"
      (.jobj (.cons "issue_id_or_url" (.jstr "123") .nil))
      (fun _ => .httpError 404 (.jobj (.cons "detail" (.jstr "nope") .nil))
        "Request failed with status code 404")).result =
        .ok ⟨[.text "Sentry resource not found for get_sentry_issue. Check IDs/slugs."], true⟩ := by
  have h : (handleCallTool "my-org" "get_sentry_issue"
      (.jobj (.cons "issue_id_or_url" (.jstr "123") .nil))
      (fun _ => .httpError 404 (.jobj (.cons "detail" (.jstr "nope") .nil))
        "Request failed with status code 404")).requests ≠ [] := by decide
  have hc := claim_C4_upstream_failure_classification "my-org" "get_sentry_issue"
    (.jobj (.cons "issue_id_or_url" (.jstr "123") .nil))
    (.jobj (.cons "detail" (.jstr "nope") .nil)) 404 "Request failed with status code 404" h
  refine ⟨h, ?_⟩
  rw [hc.1, hc.2.2.1 rfl]
  rfl

/-- C5: an unknown tool name yields the protocol-level method-not-found
fault with no upstream request; a failed validation or a failed
issue-reference normalization yields the protocol-level
invalid-parameters fault with no upstream request.  These faults are
the `Except.error` case of the dispatch result, a type distinct from
the `isError` envelope. -/
theorem claim_C5_protocol_faults (org : String) (args : JValue)
    (http : HttpRequest → HttpOutcome) :
    (∀ tool : String, tool ∉ registryToolNames →
      handleCallTool org tool args http =
        ⟨.error ⟨.methodNotFound, "Unknown tool: " ++ tool⟩, []⟩)
    ∧ (isValidGetIssueArgs args = false →
      handleCallTool org "get_sentry_issue" args http =
        ⟨.error ⟨.invalidParams, "Invalid args for get_sentry_issue."⟩, []⟩)
    ∧ (isValidListIssuesArgs args = false →
      handleCallTool org "list_sentry_issues" args http =
        ⟨.error ⟨.invalidParams, "Invalid args for list_sentry_issues."⟩, []⟩)
    ∧ (isValidGetEventArgs args = false →
      handleCallTool org "get_sentry_event_details" args http =
        ⟨.error ⟨.invalidParams, "Invalid args for get_sentry_event_details."⟩, []⟩)
    ∧ (isValidUpdateIssueArgs args = false →
      handleCallTool org "update_sentry_issue_status" args http =
        ⟨.error ⟨.invalidParams, "Invalid args for update_sentry_issue_status."⟩, []⟩)
    ∧ (isValidCreateCommentArgs args = false →
      handleCallTool org "create_sentry_issue_comment" args http =
        ⟨.error ⟨.invalidParams, "Invalid args for create_sentry_issue_comment."⟩, []⟩)
    ∧ (∀ input : String, isValidGetIssueArgs args = true →
      getField args "issue_id_or_url" = .jstr input → getIssueId input = none →
      handleCallTool org "get_sentry_issue" args http =
        ⟨.error ⟨.invalidParams, "Could not extract issue ID from: " ++ input⟩, []⟩) := by
  refine ⟨?_, ?_, ?_, ?_, ?_, ?_, ?_⟩
  · intro tool ht
    have hne : tool ≠ "get_sentry_issue" ∧ tool ≠ "list_sentry_projects" ∧
        tool ≠ "list_sentry_issues" ∧ tool ≠ "get_sentry_event_details" ∧
        tool ≠ "update_sentry_issue_status" ∧ tool ≠ "create_sentry_issue_comment" := by
      simp only [registryToolNames, toolRegistry, List.map_cons, List.map_nil,
        List.mem_cons, List.not_mem_nil, or_false] at ht
      push_neg at ht
      exact ht
    have hroute : routeTool org tool args =
        .error ⟨.methodNotFound, "Unknown tool: " ++ tool⟩ := by
      unfold routeTool
      rw [if_neg hne.1, if_neg hne.2.1, if_neg hne.2.2.1, if_neg hne.2.2.2.1,
        if_neg hne.2.2.2.2.1, if_neg hne.2.2.2.2.2]
    unfold handleCallTool
    rw [hroute]
  · intro hval
    have hroute : routeTool org "get_sentry_issue" args =
        .error ⟨.invalidParams, "Invalid args for get_sentry_issue."⟩ := by
      simp [routeTool, hval]
    unfold handleCallTool
    rw [hroute]
  · intro hval
    have hroute : routeTool org "list_sentry_issues" args =
        .error ⟨.invalidParams, "Invalid args for list_sentry_issues."⟩ := by
      simp [routeTool, hval]
    unfold handleCallTool
    rw [hroute]
  · intro hval
    have hroute : routeTool org "get_sentry_event_details" args =
        .error ⟨.invalidParams, "Invalid args for get_sentry_event_details."⟩ := by
      simp [routeTool, hval]
    unfold handleCallTool
    rw [hroute]
  · intro hval
    have hroute : routeTool org "update_sentry_issue_status" args =
        .error ⟨.invalidParams, "Invalid args for update_sentry_issue_status."⟩ := by
      simp [routeTool, hval]
    unfold handleCallTool
    rw [hroute]
  · intro hval
    have hroute : routeTool org "create_sentry_issue_comment" args =
        .error ⟨.invalidParams, "Invalid args for create_sentry_issue_comment."⟩ := by
      simp [routeTool, hval]
    unfold handleCallTool
    rw [hroute]
  · intro input hval hfield hnone
    have hroute : routeTool org "get_sentry_issue" args =
        .error ⟨.invalidParams, "Could not extract issue ID from: " ++ input⟩ := by
      simp [routeTool, hval, hfield, hnone]
    unfold handleCallTool
    rw [hroute]

/-- C5 witness: a concrete unknown tool name gives the
method-not-found fault and no request. -/
theorem claim_C5_witness :
    handleCallTool "my-org" "bogus_tool" (.jobj .nil) (fun _ => .success .jnull) =
      ⟨.error ⟨.methodNotFound, "Unknown tool: " ++ "bogus_tool"⟩, []⟩ :=
  (claim_C5_protocol_faults "my-org" (.jobj .nil) (fun _ => .success .jnull)).1
    "bogus_tool" (by decide)

/-- C6 counterexample: a valid `list_sentry_issues` call whose `status`
field is present (the empty string, which the validator accepts) does
not get `is:` appended: JS truthiness treats the empty string as
absent.  The claim as stated requires the upstream query to end in
`is:` here. -/
theorem claim_C6_counterexample :
    isValidListIssuesArgs (mkListIssuesArgs "p" (some "environment:prod") (some "")) = true
    ∧ getField (mkListIssuesArgs "p" (some "environment:prod") (some "")) "status" = .jstr ""
    ∧ (handleCallTool "my-org" "list_sentry_issues"
        (mkListIssuesArgs "p" (some "environment:prod") (some ""))
        (fun _ => .success .jnull)).requests =
      [⟨.get, "projects/my-org/p/issues/", [("query", "environment:prod")], none⟩] :=
  ⟨by decide, by decide, by decide⟩

/-- C6 (amended): when `status` is present and non-empty, `is:{status}`
is appended to the query, space-joined when `query` is also present
and non-empty; a present-but-empty `status` appends nothing.  The two
concrete upstream query parameters of the claim are produced as
stated. -/
theorem claim_C6_query_param_amended (q s : String) :
    (s ≠ "" → buildListIssuesQuery none (some s) = some ("is:" ++ s))
    ∧ (s ≠ "" → q ≠ "" →
        buildListIssuesQuery (some q) (some s) = some (q ++ " " ++ "is:" ++ s))
    ∧ buildListIssuesQuery (some q) (some "") = buildListIssuesQuery (some q) none
    ∧ (handleCallTool "my-org" "list_sentry_issues"
        (mkListIssuesArgs "p" none (some "unresolved"))
        (fun _ => .success .jnull)).requests =
      [⟨.get, "projects/my-org/p/issues/", [("query", "is:unresolved")], none⟩]
    ∧ (handleCallTool "my-org" "list_sentry_issues"
        (mkListIssuesArgs "p" (some "environment:prod") (some "resolved"))
        (fun _ => .success .jnull)).requests =
      [⟨.get, "projects/my-org/p/issues/",
        [("query", "environment:prod is:resolved")], none⟩] := by
  refine ⟨?_, ?_, ?_, by decide, by decide⟩
  · intro hs
    simp [buildListIssuesQuery, hs]
  · intro hs hq
    simp [buildListIssuesQuery, hs, hq]
  · simp [buildListIssuesQuery]

/-- C6 witness: the two query parameters of the claim, from the
amended statement. -/
theorem claim_C6_witness :
    buildListIssuesQuery none (some "unresolved") = some ("is:" ++ "unresolved")
    ∧ buildListIssuesQuery (some "environment:prod") (some "resolved") =
        some ("environment:prod" ++ " " ++ "is:" ++ "resolved") :=
  ⟨(claim_C6_query_param_amended "" "unresolved").1 (by decide),
   (claim_C6_query_param_amended "environment:prod" "resolved").2.1 (by decide) (by decide)⟩

end SentryMcp
